import Mathlib

/-!
Shallow embedding of `BaseRepositoryService` (src/unnamed/part_000,
`base-repository.service.ts` of nestjs-mongoose-repository).

Opaque driver-level values (filters, projections, sort specs, populate
option objects, sessions, passthrough query options, update patches, ids)
are modelled by a type parameter `V`.  A Mongoose query under construction
is modelled as its target (findById / findOne / find, with the filter
argument) together with the ordered trace of builder-method calls applied
to it (`select`, `sort`, `populate`, `session`, `setOptions`, `skip`,
`limit`) and a flag recording whether `.lean()` was requested.  JavaScript
semantics that matter are modelled explicitly: `x || d` treats the number
0 as falsy, while a destructuring default `{ page = 1 }` fires only when
the field is `undefined` (`none`), and `x ?? d` fires only on
`undefined`/`null` (`none`).
-/

namespace Repo

variable {V : Type}

/-- JavaScript `x || d` on an optional number: `undefined` and `0` (the
falsy integers) are replaced by the default `d`. -/
def jsOrInt (x : Option Int) (d : Int) : Int :=
  match x with
  | none => d
  | some v => if v = 0 then d else v

/-- JavaScript `Math.ceil(a / b)` on integer arguments, `b ≠ 0`:
the ceiling of the exact quotient, written with floor division. -/
def mathCeilDiv (a b : Int) : Int :=
  -((-a).fdiv b)

/-- The `pagination` field of `FindOptions`: both sub-fields optional
(source: `pagination?: { page?: number; limit?: number }`). -/
structure Pagination where
  page : Option Int := none
  limit : Option Int := none
deriving DecidableEq

/-- The `populate` argument:
`string | string[] | PopulateOptions | PopulateOptions[]`. -/
inductive PopulateArg (V : Type) where
  | str (s : String)
  | strList (l : List String)
  | opts (o : V)
  | optsList (l : List V)
deriving DecidableEq

/-- `FindOptions<T>` from `query-options.interface`: every field optional.
The `Omit<...>` variants used by `findById`/`findOne` restrict the visible
fields at the type level only; at runtime the same record shape flows into
`applyQueryOptions`, so one structure serves all of them. -/
structure FindOptions (V : Type) where
  filter : Option V := none
  projection : Option V := none
  sort : Option V := none
  pagination : Option Pagination := none
  populate : Option (PopulateArg V) := none
  session : Option V := none
  options : Option V := none
deriving DecidableEq

/-- `MutationOptions`: just the optional session. -/
structure MutationOptions (V : Type) where
  session : Option V := none
deriving DecidableEq

/-- `UpdateOptions extends MutationOptions`: adds `runValidators?`. -/
structure UpdateOptions (V : Type) where
  session : Option V := none
  runValidators : Option Bool := none
deriving DecidableEq

/-- The filter value handed to `find`/`findOne`/`countDocuments`:
either the caller's filter object or the empty object `{}` (match-all)
produced by the `|| {}` defaults in the source. -/
inductive FilterArg (V : Type) where
  | matchAll
  | given (f : V)
deriving DecidableEq

/-- `options?.filter || {}`. -/
def filterArgOf (f : Option V) : FilterArg V :=
  match f with
  | some v => FilterArg.given v
  | none => FilterArg.matchAll

/-- One builder-method call applied to a query under construction. -/
inductive QueryStep (V : Type) where
  | select (p : V)
  | sort (s : V)
  | populate (p : PopulateArg V)
  | session (s : V)
  | setOptions (o : V)
  | skip (n : Int)
  | limit (n : Int)
deriving DecidableEq

/-- Which driver primitive a read starts from, with its argument. -/
inductive QueryTarget (V : Type) where
  | byId (id : V)
  | one (f : FilterArg V)
  | many (f : FilterArg V)
deriving DecidableEq

/-- A fully built read query: target, ordered trace of builder calls,
and whether `.lean()` was requested before `exec`. -/
structure QueryDesc (V : Type) where
  target : QueryTarget V
  steps : List (QueryStep V)
  lean : Bool
deriving DecidableEq

/-- `applyPopulate`: branches on the runtime shape of the argument
(string / array / options object) but calls `query.populate` with the
argument unchanged in every branch. -/
def applyPopulate (q : List (QueryStep V)) (p : PopulateArg V) :
    List (QueryStep V) :=
  match p with
  | PopulateArg.str s => q ++ [QueryStep.populate (PopulateArg.str s)]
  | PopulateArg.strList l => q ++ [QueryStep.populate (PopulateArg.strList l)]
  | PopulateArg.optsList l => q ++ [QueryStep.populate (PopulateArg.optsList l)]
  | PopulateArg.opts o => q ++ [QueryStep.populate (PopulateArg.opts o)]

/-- `applyQueryOptions`: returns the query unchanged when no options are
given; otherwise applies, in source order, projection (`select`), sort,
populate, session, then passthrough options (`setOptions`), each step
skipped when the corresponding field is absent. -/
def applyQueryOptions (options : Option (FindOptions V))
    (q : List (QueryStep V)) : List (QueryStep V) :=
  match options with
  | none => q
  | some o =>
    let q1 := match o.projection with
      | some p => q ++ [QueryStep.select p]
      | none => q
    let q2 := match o.sort with
      | some s => q1 ++ [QueryStep.sort s]
      | none => q1
    let q3 := match o.populate with
      | some p => applyPopulate q2 p
      | none => q2
    let q4 := match o.session with
      | some s => q3 ++ [QueryStep.session s]
      | none => q3
    match o.options with
      | some s => q4 ++ [QueryStep.setOptions s]
      | none => q4

/-- `findById`: `model.findById(id)` then `applyQueryOptions`. -/
def findById (id : V) (options : Option (FindOptions V)) : QueryDesc V :=
  { target := QueryTarget.byId id
    steps := applyQueryOptions options []
    lean := false }

/-- `findOne`: `model.findOne(options?.filter || {})` then
`applyQueryOptions`. -/
def findOne (options : Option (FindOptions V)) : QueryDesc V :=
  { target := QueryTarget.one (filterArgOf (options.bind (·.filter)))
    steps := applyQueryOptions options []
    lean := false }

/-- `findMany`: `model.find(options?.filter || {})`, `applyQueryOptions`,
then, only when `options?.pagination` is present,
`const { page = 1, limit = 10 } = options.pagination` (destructuring
defaults: fire only on `undefined`), `skip((page-1)*limit)` and
`limit(limit)`. -/
def findMany (options : Option (FindOptions V)) : QueryDesc V :=
  let steps := applyQueryOptions options []
  let steps := match options.bind (·.pagination) with
    | some p =>
      let page := p.page.getD 1
      let limit := p.limit.getD 10
      let skip := (page - 1) * limit
      steps ++ [QueryStep.skip skip, QueryStep.limit limit]
    | none => steps
  { target := QueryTarget.many (filterArgOf (options.bind (·.filter)))
    steps := steps
    lean := false }

/-- `findByIdLean` (renamed `leanFindById` here): same construction as
`findById` but the query is executed with `.lean()`. -/
def leanFindById (id : V) (options : Option (FindOptions V)) : QueryDesc V :=
  { target := QueryTarget.byId id
    steps := applyQueryOptions options []
    lean := true }

/-- `findOneLean` (renamed `leanFindOne` here): same construction as
`findOne` with `.lean()`. -/
def leanFindOne (options : Option (FindOptions V)) : QueryDesc V :=
  { target := QueryTarget.one (filterArgOf (options.bind (·.filter)))
    steps := applyQueryOptions options []
    lean := true }

/-- `findManyLean` (renamed `leanFindMany` here): the duplicated
`findMany` body with `.lean()`. -/
def leanFindMany (options : Option (FindOptions V)) : QueryDesc V :=
  let steps := applyQueryOptions options []
  let steps := match options.bind (·.pagination) with
    | some p =>
      let page := p.page.getD 1
      let limit := p.limit.getD 10
      let skip := (page - 1) * limit
      steps ++ [QueryStep.skip skip, QueryStep.limit limit]
    | none => steps
  { target := QueryTarget.many (filterArgOf (options.bind (·.filter)))
    steps := steps
    lean := true }

/-- The `countDocuments` call issued by `count`: filter argument and the
session bound via `.session(options?.session ?? null)`. -/
structure CountCall (V : Type) where
  filter : FilterArg V
  session : Option V
deriving DecidableEq

/-- `count(filter?, options?)`: `countDocuments(filter || {})` with the
session from the mutation options. -/
def count (filter : Option (FilterArg V)) (options : Option (MutationOptions V)) :
    CountCall V :=
  { filter := filter.getD FilterArg.matchAll
    session := options.bind (·.session) }

/-- The `meta` object of `PaginatedResult`. -/
structure PaginationMeta where
  total : Int
  page : Int
  limit : Int
  totalPages : Int
  hasNextPage : Bool
  hasPrevPage : Bool
deriving DecidableEq

/-- The two independent driver calls `findWithPagination` issues through
`Promise.all`: the data fetch (a `findMany` query) and the count. -/
structure PaginatedCalls (V : Type) where
  dataQuery : QueryDesc V
  countCall : CountCall V
deriving DecidableEq

/-- Denotation of `findWithPagination`(/`Lean`): the two calls it issues,
and the meta it computes as a function of the `total` the count returns. -/
structure PaginatedResultDesc (V : Type) where
  calls : PaginatedCalls V
  meta : Int → PaginationMeta

/-- `findWithPagination`: `page = options?.pagination?.page || 1`,
`limit = options?.pagination?.limit || 10` (JS `||`: 0 is falsy),
`Promise.all` of `findMany({...options, pagination: {page, limit}})` and
`count(filter, {session: options?.session})`, then
`totalPages = Math.ceil(total / limit)`,
`hasNextPage = page < totalPages`, `hasPrevPage = page > 1`. -/
def findWithPagination (options : Option (FindOptions V)) :
    PaginatedResultDesc V :=
  let filter := filterArgOf (options.bind (·.filter))
  let page := jsOrInt ((options.bind (·.pagination)).bind (·.page)) 1
  let limit := jsOrInt ((options.bind (·.pagination)).bind (·.limit)) 10
  { calls :=
      { dataQuery := findMany (some
          { options.getD {} with
            pagination := some { page := some page, limit := some limit } })
        countCall := count (some filter)
          (some { session := options.bind (·.session) }) }
    meta := fun total =>
      let totalPages := mathCeilDiv total limit
      { total := total
        page := page
        limit := limit
        totalPages := totalPages
        hasNextPage := decide (page < totalPages)
        hasPrevPage := decide (page > 1) } }

/-- `findWithPaginationLean` (renamed `leanFindWithPagination` here): the
duplicated body, delegating to `findManyLean` for the data fetch. -/
def leanFindWithPagination (options : Option (FindOptions V)) :
    PaginatedResultDesc V :=
  let filter := filterArgOf (options.bind (·.filter))
  let page := jsOrInt ((options.bind (·.pagination)).bind (·.page)) 1
  let limit := jsOrInt ((options.bind (·.pagination)).bind (·.limit)) 10
  { calls :=
      { dataQuery := leanFindMany (some
          { options.getD {} with
            pagination := some { page := some page, limit := some limit } })
        countCall := count (some filter)
          (some { session := options.bind (·.session) }) }
    meta := fun total =>
      let totalPages := mathCeilDiv total limit
      { total := total
        page := page
        limit := limit
        totalPages := totalPages
        hasNextPage := decide (page < totalPages)
        hasPrevPage := decide (page > 1) } }

/-- The effective page `findWithPagination`(/`Lean`) works with. -/
def effPage (options : Option (FindOptions V)) : Int :=
  jsOrInt ((options.bind (·.pagination)).bind (·.page)) 1

/-- The effective limit `findWithPagination`(/`Lean`) works with. -/
def effLimit (options : Option (FindOptions V)) : Int :=
  jsOrInt ((options.bind (·.pagination)).bind (·.limit)) 10

/-- The target of an update/delete primitive: by id
(`findByIdAndUpdate`/`findByIdAndDelete`) or by filter
(`findOneAndUpdate`/`findOneAndDelete`). -/
inductive UpdateTarget (V : Type) where
  | byId (id : V)
  | byFilter (f : V)
deriving DecidableEq

/-- The driver call issued by `updateById`/`updateOne`: target, update
patch, and the option object `{ new, runValidators, session }`. -/
structure FindAndUpdateCall (V : Type) where
  target : UpdateTarget V
  update : V
  new : Bool
  runValidators : Bool
  session : Option V
deriving DecidableEq

/-- `updateById`: `findByIdAndUpdate(id, update, { new: true,
runValidators: options?.runValidators ?? true, session: options?.session })`. -/
def updateById (id : V) (update : V) (options : Option (UpdateOptions V)) :
    FindAndUpdateCall V :=
  { target := UpdateTarget.byId id
    update := update
    new := true
    runValidators := (options.bind (·.runValidators)).getD true
    session := options.bind (·.session) }

/-- `updateOne`: `findOneAndUpdate(filter, update, { new: true,
runValidators: options?.runValidators ?? true, session: options?.session })`. -/
def updateOne (filter : V) (update : V) (options : Option (UpdateOptions V)) :
    FindAndUpdateCall V :=
  { target := UpdateTarget.byFilter filter
    update := update
    new := true
    runValidators := (options.bind (·.runValidators)).getD true
    session := options.bind (·.session) }

/-- The driver call issued by `updateMany` (no `new` flag: it returns a
count, not a document). -/
structure UpdateManyCall (V : Type) where
  filter : V
  update : V
  runValidators : Bool
  session : Option V
deriving DecidableEq

/-- `updateMany`: `model.updateMany(filter, update, { runValidators:
options?.runValidators ?? true, session: options?.session })`. -/
def updateMany (filter : V) (update : V) (options : Option (UpdateOptions V)) :
    UpdateManyCall V :=
  { filter := filter
    update := update
    runValidators := (options.bind (·.runValidators)).getD true
    session := options.bind (·.session) }

/-- The driver call issued by `deleteById`/`deleteOne`. -/
structure FindAndDeleteCall (V : Type) where
  target : UpdateTarget V
  session : Option V
deriving DecidableEq

/-- `deleteById`: `findByIdAndDelete(id, { session: options?.session })`. -/
def deleteById (id : V) (options : Option (MutationOptions V)) :
    FindAndDeleteCall V :=
  { target := UpdateTarget.byId id
    session := options.bind (·.session) }

/-- `deleteOne`: `findOneAndDelete(filter, { session: options?.session })`. -/
def deleteOne (filter : V) (options : Option (MutationOptions V)) :
    FindAndDeleteCall V :=
  { target := UpdateTarget.byFilter filter
    session := options.bind (·.session) }

/-- The session values bound on a query trace, in order. -/
def sessionsOf (steps : List (QueryStep V)) : List V :=
  steps.filterMap fun s => match s with
    | QueryStep.session v => some v
    | _ => none

/-- Whether a query trace contains a `skip` or `limit` call. -/
def hasSkipOrLimit (steps : List (QueryStep V)) : Bool :=
  steps.any fun s => match s with
    | QueryStep.skip _ => true
    | QueryStep.limit _ => true
    | _ => false

theorem applyPopulate_eq (q : List (QueryStep V)) (p : PopulateArg V) :
    applyPopulate q p = q ++ [QueryStep.populate p] := by
  cases p <;> rfl

theorem applyQueryOptions_some_eq (o : FindOptions V) (q : List (QueryStep V)) :
    applyQueryOptions (some o) q =
      q ++ (o.projection.map QueryStep.select).toList
        ++ (o.sort.map QueryStep.sort).toList
        ++ (o.populate.map QueryStep.populate).toList
        ++ (o.session.map QueryStep.session).toList
        ++ (o.options.map QueryStep.setOptions).toList := by
  rcases o with ⟨f, proj, srt, pag, pop, sess, opts⟩
  simp only [applyQueryOptions]
  cases proj <;> cases srt <;> cases pop <;> cases sess <;> cases opts <;>
    simp [applyPopulate_eq]

theorem sessionsOf_append (a b : List (QueryStep V)) :
    sessionsOf (a ++ b) = sessionsOf a ++ sessionsOf b := by
  simp [sessionsOf]

theorem sessionsOf_applyQueryOptions (options : Option (FindOptions V)) :
    sessionsOf (applyQueryOptions options []) =
      (options.bind (·.session)).toList := by
  cases options with
  | none => rfl
  | some o =>
    rw [applyQueryOptions_some_eq]
    rcases o with ⟨f, proj, srt, pag, pop, sess, opts⟩
    cases proj <;> cases srt <;> cases pop <;> cases sess <;> cases opts <;>
      simp [sessionsOf]

theorem hasSkipOrLimit_applyQueryOptions (options : Option (FindOptions V)) :
    hasSkipOrLimit (applyQueryOptions options []) = false := by
  cases options with
  | none => rfl
  | some o =>
    rw [applyQueryOptions_some_eq]
    rcases o with ⟨f, proj, srt, pag, pop, sess, opts⟩
    cases proj <;> cases srt <;> cases pop <;> cases sess <;> cases opts <;>
      simp [hasSkipOrLimit]

theorem jsOrInt_ne_zero (x : Option Int) (d : Int) (hd : d ≠ 0) :
    jsOrInt x d ≠ 0 := by
  cases x with
  | none => exact hd
  | some v =>
    by_cases h : v = 0 <;> simp [jsOrInt, h, hd]

theorem mathCeilDiv_eq_ceil (a b : Int) (hb : 0 < b) :
    mathCeilDiv a b = ⌈(a : ℚ) / (b : ℚ)⌉ := by
  have hbn : ((b.toNat : ℕ) : ℚ) = (b : ℚ) := by
    exact_mod_cast Int.toNat_of_nonneg hb.le
  have hfdiv : (-a).fdiv b = (-a) / b := Int.fdiv_eq_ediv _ hb.le
  have hfloor : ⌊((-a : ℤ) : ℚ) / ((b.toNat : ℕ) : ℚ)⌋ = (-a) / (b.toNat : ℤ) :=
    Rat.floor_intCast_div_natCast (-a) b.toNat
  have hcast : ((-a : ℤ) : ℚ) / ((b.toNat : ℕ) : ℚ) = -((a : ℚ) / (b : ℚ)) := by
    push_cast
    rw [hbn]
    ring
  have hfneg : ⌊-((a : ℚ) / (b : ℚ))⌋ = -⌈(a : ℚ) / (b : ℚ)⌉ := Int.floor_neg
  have htn : (-a) / (b.toNat : ℤ) = (-a) / b := by
    rw [Int.toNat_of_nonneg hb.le]
  rw [hcast, hfneg] at hfloor
  unfold mathCeilDiv
  omega

theorem getD_true_eq_false_iff (x : Option Bool) :
    x.getD true = false ↔ x = some false := by
  cases x with
  | none => simp
  | some b => cases b <;> simp

/-- Claim C1: for every `findWithPagination`/`leanFindWithPagination` call
with effective page ≥ 1, effective limit ≥ 1 and any total ≥ 0 from the
count query, the returned meta satisfies
`totalPages = ceil(total/limit)`, `hasNextPage ↔ page < totalPages`
and `hasPrevPage ↔ page > 1`, with `meta.page`/`meta.limit` the effective
values and the lean variant's meta identical. -/
theorem claim_c1 {V : Type} (options : Option (FindOptions V)) (total : Int)
    (htotal : 0 ≤ total) (hpage : 1 ≤ effPage options)
    (hlimit : 1 ≤ effLimit options) :
    ((findWithPagination options).meta total).totalPages
        = ⌈(total : ℚ) / (effLimit options : ℚ)⌉
    ∧ (((findWithPagination options).meta total).hasNextPage = true
        ↔ ((findWithPagination options).meta total).page
            < ((findWithPagination options).meta total).totalPages)
    ∧ (((findWithPagination options).meta total).hasPrevPage = true
        ↔ 1 < ((findWithPagination options).meta total).page)
    ∧ ((findWithPagination options).meta total).page = effPage options
    ∧ ((findWithPagination options).meta total).limit = effLimit options
    ∧ (leanFindWithPagination options).meta total
        = (findWithPagination options).meta total := by
  refine ⟨?_, ?_, ?_, rfl, rfl, rfl⟩
  · exact mathCeilDiv_eq_ceil total (effLimit options) hlimit
  · exact decide_eq_true_iff
  · exact decide_eq_true_iff

theorem claim_c1_witness :
    (0 : Int) ≤ 25
    ∧ 1 ≤ effPage (V := Nat)
        (some { pagination := some { page := some 3, limit := some 10 } })
    ∧ 1 ≤ effLimit (V := Nat)
        (some { pagination := some { page := some 3, limit := some 10 } })
    ∧ ((findWithPagination (V := Nat)
          (some { pagination := some { page := some 3, limit := some 10 } })).meta 25).totalPages
        = ⌈((25 : Int) : ℚ) / ((effLimit (V := Nat)
            (some { pagination := some { page := some 3, limit := some 10 } }) : Int) : ℚ)⌉
    ∧ ((findWithPagination (V := Nat)
          (some { pagination := some { page := some 3, limit := some 10 } })).meta 25)
        = { total := 25, page := 3, limit := 10, totalPages := 3,
            hasNextPage := false, hasPrevPage := true } :=
  ⟨by decide, by decide, by decide,
    (claim_c1 (V := Nat)
      (some { pagination := some { page := some 3, limit := some 10 } }) 25
      (by decide) (by decide) (by decide)).1,
    by decide⟩

/-- Claim C2: `findMany`/`leanFindMany` with a pagination option apply
`skip((page-1)*limit)` then `limit(limit)` after the other options, with
`page`/`limit` defaulting to 1/10 only when the respective field is
missing; without a pagination option no skip and no limit are applied. -/
theorem claim_c2 {V : Type} (o : FindOptions V) (p : Pagination) :
    (o.pagination = some p →
      (findMany (some o)).steps
        = applyQueryOptions (some o) []
            ++ [QueryStep.skip ((p.page.getD 1 - 1) * p.limit.getD 10),
                QueryStep.limit (p.limit.getD 10)]
      ∧ (leanFindMany (some o)).steps
        = applyQueryOptions (some o) []
            ++ [QueryStep.skip ((p.page.getD 1 - 1) * p.limit.getD 10),
                QueryStep.limit (p.limit.getD 10)])
    ∧ (o.pagination = none →
      (findMany (some o)).steps = applyQueryOptions (some o) []
      ∧ hasSkipOrLimit (findMany (some o)).steps = false
      ∧ (leanFindMany (some o)).steps = applyQueryOptions (some o) []
      ∧ hasSkipOrLimit (leanFindMany (some o)).steps = false) := by
  constructor
  · intro h
    constructor <;> simp [findMany, leanFindMany, h]
  · intro h
    refine ⟨?_, ?_, ?_, ?_⟩ <;>
      simp [findMany, leanFindMany, h, hasSkipOrLimit_applyQueryOptions]

theorem claim_c2_witness :
    (findMany (V := Nat)
        (some { pagination := some { page := some 2, limit := some 10 } })).steps
      = [QueryStep.skip 10, QueryStep.limit 10] := by
  have h := (claim_c2 (V := Nat)
    { pagination := some { page := some 2, limit := some 10 } }
    { page := some 2, limit := some 10 }).1 rfl
  exact h.1.trans (by decide)

/-- Claim C9: the effective limit used by `findWithPagination` and
`leanFindWithPagination` is never 0 — a supplied 0 (falsy) is replaced by
the default 10 by the `|| 10` coercion — so the `Math.ceil(total/limit)`
in `totalPages` never divides by zero. -/
theorem claim_c9 {V : Type} (options : Option (FindOptions V)) (total : Int) :
    ((findWithPagination options).meta total).limit ≠ 0
    ∧ ((leanFindWithPagination options).meta total).limit ≠ 0
    ∧ ((findWithPagination options).meta total).totalPages
        = mathCeilDiv total (((findWithPagination options).meta total).limit)
    ∧ ((options.bind (·.pagination)).bind (·.limit) = some 0 →
        ((findWithPagination options).meta total).limit = 10
        ∧ ((leanFindWithPagination options).meta total).limit = 10) := by
  refine ⟨?_, ?_, rfl, ?_⟩
  · exact jsOrInt_ne_zero _ 10 (by decide)
  · exact jsOrInt_ne_zero _ 10 (by decide)
  · intro h
    constructor <;>
      · show jsOrInt ((options.bind (·.pagination)).bind (·.limit)) 10 = 10
        rw [h]
        rfl

theorem claim_c9_witness :
    ((findWithPagination (V := Nat)
        (some { pagination := some { page := none, limit := some 0 } })).meta 5).limit
      = 10 :=
  ((claim_c9 (V := Nat)
      (some { pagination := some { page := none, limit := some 0 } }) 5).2.2.2
    rfl).1

/-- Claim C10: in `findMany`/`leanFindMany` the destructuring defaults
fire only on a missing field, not on 0: pagination `{page: 0, limit: L}`
is used as-is and produces `skip((0-1)*L)`, a negative skip for positive
`L`; `findWithPagination`, in contrast, coerces the falsy page 0 to the
default 1. -/
theorem claim_c10 {V : Type} (o : FindOptions V) (L : Int) :
    (o.pagination = some { page := some 0, limit := some L } →
      (findMany (some o)).steps
        = applyQueryOptions (some o) []
            ++ [QueryStep.skip ((0 - 1) * L), QueryStep.limit L]
      ∧ (leanFindMany (some o)).steps
        = applyQueryOptions (some o) []
            ++ [QueryStep.skip ((0 - 1) * L), QueryStep.limit L])
    ∧ (o.pagination.bind (·.page) = some 0 →
        ∀ total : Int, ((findWithPagination (some o)).meta total).page = 1) := by
  constructor
  · intro h
    constructor <;> simp [findMany, leanFindMany, h]
  · intro h total
    show jsOrInt (o.pagination.bind (·.page)) 1 = 1
    rw [h]
    rfl

theorem claim_c10_witness :
    ((findMany (V := Nat)
        (some { pagination := some { page := some 0, limit := some 10 } })).steps
      = [QueryStep.skip (-10), QueryStep.limit 10])
    ∧ ((-10 : Int) < 0)
    ∧ ((findWithPagination (V := Nat)
        (some { pagination := some { page := some 0, limit := some 10 } })).meta 25).page
      = 1 := by
  have h := claim_c10 (V := Nat)
    { pagination := some { page := some 0, limit := some 10 } } 10
  exact ⟨(h.1 rfl).1.trans (by decide), by decide, h.2 rfl 25⟩

/-- Claim C3: `findWithPagination` defaults a missing page/limit to 1/10,
issues a data fetch (the `findMany` call built from the caller's options
with the effective pagination) and a count over the same defaulted filter,
forwards the caller's session unchanged to both underlying calls, and
reports the effective page and limit in the returned meta. -/
theorem claim_c3 {V : Type} (options : Option (FindOptions V)) (total : Int) :
    ((options.bind (·.pagination)).bind (·.page) = none →
        ((findWithPagination options).meta total).page = 1)
    ∧ ((options.bind (·.pagination)).bind (·.limit) = none →
        ((findWithPagination options).meta total).limit = 10)
    ∧ (findWithPagination options).calls.dataQuery
        = findMany (some
            { options.getD {} with
              pagination := some { page := some (effPage options),
                                   limit := some (effLimit options) } })
    ∧ (findWithPagination options).calls.countCall.filter
        = filterArgOf (options.bind (·.filter))
    ∧ (findWithPagination options).calls.countCall.session
        = options.bind (·.session)
    ∧ sessionsOf (findWithPagination options).calls.dataQuery.steps
        = (options.bind (·.session)).toList
    ∧ ((findWithPagination options).meta total).page = effPage options
    ∧ ((findWithPagination options).meta total).limit = effLimit options := by
  refine ⟨?_, ?_, rfl, rfl, rfl, ?_, rfl, rfl⟩
  · intro h
    show jsOrInt ((options.bind (·.pagination)).bind (·.page)) 1 = 1
    rw [h]
    rfl
  · intro h
    show jsOrInt ((options.bind (·.pagination)).bind (·.limit)) 10 = 10
    rw [h]
    rfl
  · show sessionsOf (findMany (some
        { options.getD {} with
          pagination := some { page := some (effPage options),
                               limit := some (effLimit options) } })).steps = _
    rw [show (findMany (some
        { options.getD {} with
          pagination := some { page := some (effPage options),
                               limit := some (effLimit options) } })).steps
      = applyQueryOptions (some
          { options.getD {} with
            pagination := some { page := some (effPage options),
                                 limit := some (effLimit options) } }) []
        ++ [QueryStep.skip ((effPage options - 1) * effLimit options),
            QueryStep.limit (effLimit options)] from rfl]
    rw [sessionsOf_append, sessionsOf_applyQueryOptions]
    cases options <;> simp [sessionsOf]

theorem claim_c3_witness :
    ((Option.bind (some ({ session := some 7 } : FindOptions Nat))
        (·.pagination)).bind (·.page) = none)
    ∧ ((findWithPagination (some ({ session := some 7 } : FindOptions Nat))).meta 0).page = 1
    ∧ sessionsOf
        (findWithPagination (some ({ session := some 7 } : FindOptions Nat))).calls.dataQuery.steps
      = [7]
    ∧ (findWithPagination (some ({ session := some 7 } : FindOptions Nat))).calls.countCall.session
      = some 7 := by
  have h := claim_c3 (V := Nat) (some { session := some 7 }) 0
  exact ⟨rfl, h.1 rfl, h.2.2.2.2.2.1.trans (by decide), h.2.2.2.2.1⟩

/-- Claim C7: `leanFindWithPagination` builds the same underlying query
as `findWithPagination` — same target, same builder-call trace, same
count call — and the same meta function; they differ only in the lean
flag on the data query. -/
theorem claim_c7 {V : Type} (options : Option (FindOptions V)) :
    (leanFindWithPagination options).calls.dataQuery.target
        = (findWithPagination options).calls.dataQuery.target
    ∧ (leanFindWithPagination options).calls.dataQuery.steps
        = (findWithPagination options).calls.dataQuery.steps
    ∧ (leanFindWithPagination options).calls.dataQuery.lean = true
    ∧ (findWithPagination options).calls.dataQuery.lean = false
    ∧ (leanFindWithPagination options).calls.countCall
        = (findWithPagination options).calls.countCall
    ∧ (leanFindWithPagination options).meta = (findWithPagination options).meta :=
  ⟨rfl, rfl, rfl, rfl, rfl, rfl⟩

/-- Claim C8: `applyQueryOptions` applies the supplied options in the
fixed order projection, sort, populate, session, passthrough options,
each step a no-op when the option is absent, and every read operation
routes its options through it (with `findMany`/`leanFindMany` appending
their pagination steps afterwards, shown in C2's theorem). -/
theorem claim_c8 {V : Type} (o : FindOptions V) (q : List (QueryStep V))
    (id : V) :
    applyQueryOptions (some o) q
      = q ++ (o.projection.map QueryStep.select).toList
          ++ (o.sort.map QueryStep.sort).toList
          ++ (o.populate.map QueryStep.populate).toList
          ++ (o.session.map QueryStep.session).toList
          ++ (o.options.map QueryStep.setOptions).toList
    ∧ applyQueryOptions (none : Option (FindOptions V)) q = q
    ∧ (findById id (some o)).steps = applyQueryOptions (some o) []
    ∧ (findOne (some o)).steps = applyQueryOptions (some o) []
    ∧ (leanFindById id (some o)).steps = applyQueryOptions (some o) []
    ∧ (leanFindOne (some o)).steps = applyQueryOptions (some o) []
    ∧ (o.pagination = none →
        (findMany (some o)).steps = applyQueryOptions (some o) []
        ∧ (leanFindMany (some o)).steps = applyQueryOptions (some o) []) := by
  refine ⟨applyQueryOptions_some_eq o q, rfl, rfl, rfl, rfl, rfl, ?_⟩
  intro h
  constructor <;> simp [findMany, leanFindMany, h]

theorem claim_c8_witness :
    applyQueryOptions
        (some ({ projection := some 1, sort := some 2,
                 populate := some (PopulateArg.str "posts"),
                 session := some 3, options := some 4 } : FindOptions Nat)) []
      = [QueryStep.select 1, QueryStep.sort 2,
         QueryStep.populate (PopulateArg.str "posts"),
         QueryStep.session 3, QueryStep.setOptions 4] := by
  have h := (claim_c8 (V := Nat)
    { projection := some 1, sort := some 2,
      populate := some (PopulateArg.str "posts"),
      session := some 3, options := some 4 } [] 0).1
  exact h.trans (by decide)

variable {E : Type}

/-- Interpretation of an update/delete target as a predicate on stored
entities, given an id-match and a filter-match predicate. -/
def updateTargetPred (mId mF : V → E → Bool) : UpdateTarget V → E → Bool
  | UpdateTarget.byId i => mId i
  | UpdateTarget.byFilter f => mF f

/-- Interpretation of a read target as a predicate on stored entities;
the match-all filter `{}` matches every entity. -/
def queryTargetPred (mId mF : V → E → Bool) : QueryTarget V → E → Bool
  | QueryTarget.byId i => mId i
  | QueryTarget.one FilterArg.matchAll => fun _ => true
  | QueryTarget.one (FilterArg.given f) => mF f
  | QueryTarget.many FilterArg.matchAll => fun _ => true
  | QueryTarget.many (FilterArg.given f) => mF f

/-- Driver semantics of the `findByIdAndUpdate`/`findOneAndUpdate`
primitives the repository delegates to, per their documented contract:
resolve to `null` (`none`) when nothing matches; otherwise apply the
update (interpreted by `applyU`) to the first match and return the
post-update document when the `new` option is set, the pre-update
document otherwise. -/
def driverFindAndUpdate (applyU : V → E → E) (mId mF : V → E → Bool)
    (store : List E) (c : FindAndUpdateCall V) : Option E :=
  match store.find? (updateTargetPred mId mF c.target) with
  | none => none
  | some e => some (if c.new then applyU c.update e else e)

/-- Driver semantics of `findByIdAndDelete`/`findOneAndDelete`: the first
matching document (the pre-deletion snapshot), or `null` when none. -/
def driverFindAndDelete (mId mF : V → E → Bool) (store : List E)
    (c : FindAndDeleteCall V) : Option E :=
  store.find? (updateTargetPred mId mF c.target)

/-- Driver semantics of the single-result reads (`findById`/`findOne`):
the first matching document, or `null` when none. -/
def driverFindFirst (mId mF : V → E → Bool) (store : List E)
    (q : QueryDesc V) : Option E :=
  store.find? (queryTargetPred mId mF q.target)

/-- Claim C4: `updateById` and `updateOne` always pass `new: true` to the
driver — the caller's `UpdateOptions` cannot override it — so whenever the
id/filter matches a stored entity the returned document is the
post-update state, never the pre-update state. -/
theorem claim_c4 {V E : Type} (applyU : V → E → E) (mId mF : V → E → Bool)
    (store : List E) (id f u : V) (options : Option (UpdateOptions V))
    (e : E) :
    ((updateById id u options).new = true
      ∧ (updateOne f u options).new = true)
    ∧ (store.find? (mId id) = some e →
        driverFindAndUpdate applyU mId mF store (updateById id u options)
          = some (applyU u e))
    ∧ (store.find? (mF f) = some e →
        driverFindAndUpdate applyU mId mF store (updateOne f u options)
          = some (applyU u e)) := by
  refine ⟨⟨rfl, rfl⟩, ?_, ?_⟩ <;>
    · intro h
      simp [driverFindAndUpdate, updateTargetPred, updateById, updateOne, h]

theorem claim_c4_witness :
    ([5].find? (fun e => e == 5) = some 5)
    ∧ driverFindAndUpdate (V := Nat) (E := Nat) (fun u e => e + u)
        (fun i e => e == i) (fun _ _ => false) [5] (updateById 5 3 none)
      = some 8 := by
  refine ⟨by decide, ?_⟩
  exact (claim_c4 (V := Nat) (E := Nat) (fun u e => e + u)
    (fun i e => e == i) (fun _ _ => false) [5] 5 0 3 none 5).2.1 (by decide)

/-- Claim C5: every update operation (`updateById`, `updateOne`,
`updateMany`) passes `runValidators = true` to the driver unless the
caller supplied a value, and passes `false` exactly when the caller
explicitly supplied `runValidators: false` on that call; the operations
are pure functions of their per-call arguments, so there is no global
override. -/
theorem claim_c5 {V : Type} (id f u : V) (options : Option (UpdateOptions V)) :
    (updateById id u options).runValidators
        = (options.bind (·.runValidators)).getD true
    ∧ (updateOne f u options).runValidators
        = (options.bind (·.runValidators)).getD true
    ∧ (updateMany f u options).runValidators
        = (options.bind (·.runValidators)).getD true
    ∧ (options.bind (·.runValidators) = none →
        (updateById id u options).runValidators = true
        ∧ (updateOne f u options).runValidators = true
        ∧ (updateMany f u options).runValidators = true)
    ∧ ((updateById id u options).runValidators = false
        ↔ options.bind (·.runValidators) = some false)
    ∧ ((updateOne f u options).runValidators = false
        ↔ options.bind (·.runValidators) = some false)
    ∧ ((updateMany f u options).runValidators = false
        ↔ options.bind (·.runValidators) = some false) := by
  refine ⟨rfl, rfl, rfl, ?_, ?_, ?_, ?_⟩
  · intro h
    refine ⟨?_, ?_, ?_⟩ <;>
      · show (options.bind (·.runValidators)).getD true = true
        rw [h]
        rfl
  all_goals
    exact getD_true_eq_false_iff (options.bind (·.runValidators))

theorem claim_c5_witness :
    (updateById (V := Nat) 1 2 none).runValidators = true
    ∧ (updateById (V := Nat) 1 2
        (some { runValidators := some false })).runValidators = false := by
  constructor
  · exact ((claim_c5 (V := Nat) 1 1 2 none).2.2.2.1 rfl).1
  · exact ((claim_c5 (V := Nat) 1 1 2
      (some { runValidators := some false })).2.2.2.2.1).mpr rfl

/-- Claim C6: when the id / filter matches no stored entity, `updateById`,
`updateOne`, `deleteById`, `deleteOne`, `findById` and `findOne` all
resolve to the not-found sentinel `null` (`none`) rather than raising an
error (the model returns an `Option`; no error outcome exists). -/
theorem claim_c6 {V E : Type} (applyU : V → E → E) (mId mF : V → E → Bool)
    (store : List E) (id f u : V)
    (uopts : Option (UpdateOptions V)) (mopts : Option (MutationOptions V))
    (fopts : Option (FindOptions V)) (o : FindOptions V)
    (hId : store.find? (mId id) = none)
    (hF : store.find? (mF f) = none) :
    driverFindAndUpdate applyU mId mF store (updateById id u uopts) = none
    ∧ driverFindAndUpdate applyU mId mF store (updateOne f u uopts) = none
    ∧ driverFindAndDelete mId mF store (deleteById id mopts) = none
    ∧ driverFindAndDelete mId mF store (deleteOne f mopts) = none
    ∧ driverFindFirst mId mF store (findById id fopts) = none
    ∧ driverFindFirst mId mF store (findOne (some { o with filter := some f }))
        = none := by
  refine ⟨?_, ?_, ?_, ?_, ?_, ?_⟩ <;>
    simp [driverFindAndUpdate, driverFindAndDelete, driverFindFirst,
      updateTargetPred, queryTargetPred, updateById, updateOne, deleteById,
      deleteOne, findById, findOne, filterArgOf, hId, hF]

theorem claim_c6_witness :
    ([4].find? (fun e => e == 5) = none)
    ∧ ([4].find? (fun e => e == 6) = none)
    ∧ driverFindAndUpdate (V := Nat) (E := Nat) (fun u e => e + u)
        (fun i e => e == i) (fun q e => e == q) [4] (updateById 5 3 none)
      = none
    ∧ driverFindFirst (V := Nat) (E := Nat) (fun i e => e == i)
        (fun q e => e == q) [4] (findOne (some { filter := some 6 })) = none := by
  have h := claim_c6 (V := Nat) (E := Nat) (fun u e => e + u)
    (fun i e => e == i) (fun q e => e == q) [4] 5 6 3 none none none {}
    (by decide) (by decide)
  exact ⟨by decide, by decide, h.1, h.2.2.2.2.2⟩

end Repo
